import Mathlib

/-!
Verification of the size-preserving podcast splicer core
(`app/size_preserving_podcast_splicer/audio_splicer.py`).

The embedding follows the Python source:
* `_calculate_target_bitrate` works over exact rationals; Python's `int(...)`
  on a non-negative value is `Int.floor`.
* `_pad_mp3_to_size` acts on a small model of an MP3 file: the byte size of
  everything except the custom `TXXX:padding` frame, plus the optional payload
  length of that frame.  The mutagen ID3 writer is external to the repository,
  so its size behaviour is modelled from the spec's container-writer contract
  (one named padding entry costing payload + fixed frame overhead, no implicit
  padding added by the writer).
* `_insert_add`'s timeline construction is embedded as the list of the seven
  trim regions the code emits; the code performs no validation before handing
  them to ffmpeg.
* `AudioSplicer.insert_ad_and_pad` is embedded as a state function over the
  cache, parametrized by the behaviour of the external encoder; `Except`
  models a Python exception escaping the encoding step, and the result records
  whether the temporary work file survives the call and whether the encoder
  was invoked.
-/

namespace PodcastSplicer

/-! ### Bitrate planner (`_calculate_target_bitrate`) -/

/-- The fixed MP3 bitrate ladder from `_calculate_target_bitrate`. -/
def common_bitrates : List ℕ := [32, 40, 48, 56, 64, 80, 96, 112, 128, 160, 192, 224, 256, 320]

/-- `_calculate_target_bitrate` from `audio_splicer.py`:
`available_bytes = target_size_bytes * 0.95`,
`target_bitrate = int(available_bytes * 8 / duration_seconds)`, then the first
rate of the reversed ladder with `rate * 1000 <= target_bitrate`; the trailing
`assert False` (no ladder value fits) is `none`. -/
def _calculate_target_bitrate (duration_seconds : ℚ) (target_size_bytes : ℕ) : Option ℕ :=
  let available_bytes : ℚ := target_size_bytes * (95 / 100)
  let target_bitrate : ℤ := ⌊available_bytes * 8 / duration_seconds⌋
  common_bitrates.reverse.find? (fun rate => decide ((rate * 1000 : ℤ) ≤ target_bitrate))

/-! ### Exact-size padder (`_pad_mp3_to_size`) -/

/-- Bytes of overhead per `TXXX` frame (constant from `_pad_mp3_to_size`). -/
def TXXX_FRAME_OVERHEAD : ℕ := 10

/-- A model of the MP3 file as the padder sees it: `content` is the byte size
of everything except the custom `TXXX:padding` frame, and `padding` is the
payload length of that frame when present.  Modelled from the spec: the
container metadata writer (mutagen, external to the repository) stores one
named padding entry costing its payload plus the fixed frame overhead, and is
configured to add no implicit padding of its own. -/
structure MP3File where
  content : ℕ
  padding : Option ℕ
  deriving DecidableEq, Repr

/-- `os.path.getsize`: the total byte size of the modelled file. -/
def MP3File.size (f : MP3File) : ℕ :=
  f.content + (match f.padding with
    | some p => p + TXXX_FRAME_OVERHEAD
    | none => 0)

/-- `_pad_mp3_to_size` from `audio_splicer.py`.  Returns the file after the
call together with the function's boolean result.  `padding_size` is computed
in ℤ as in Python; `b"\x00" * n` is empty for `n < 0`, which is `Int.toNat`.
The `tags.pop`/`tags.add`/`tags.save(padding=0)` sequence replaces any prior
`TXXX:padding` entry with one whose payload is the computed padding. -/
def _pad_mp3_to_size (f : MP3File) (target_size : ℕ) : MP3File × Bool :=
  let initial_size := f.size
  if target_size < initial_size then
    (f, false)
  else
    let total_growth_needed : ℤ := (target_size : ℤ) - (initial_size : ℤ)
    let padding_size : ℤ := total_growth_needed - (TXXX_FRAME_OVERHEAD : ℤ)
    let f' : MP3File := { content := f.content, padding := some padding_size.toNat }
    let final_size := f'.size
    if final_size = target_size then (f', true) else (f', false)

/-! ### Splice timeline builder (`_insert_add`) -/

/-- Which input stream a trim region is taken from. -/
inductive SourceKind where
  | original
  | ad
  deriving DecidableEq, Repr

/-- One trim region of the splice plan: `atrim` from `start` to `stop` of a
source stream. -/
structure Segment where
  src : SourceKind
  start : ℚ
  stop : ℚ
  deriving DecidableEq, Repr

/-- The fixed crossfade duration from `_insert_add` (`fade_duration = 2`). -/
def fade_duration : ℚ := 2

/-- The seven trim regions `_insert_add` builds, in emission order:
`first_half`, `first_fade`, `insert_fade_in`, `insert_main`,
`insert_fade_out`, `second_fade`, `second_half`.  The code constructs them
unconditionally — there is no duration validation before the filter graph is
handed to ffmpeg. -/
def _insert_add_timeline (original_duration ad_duration : ℚ) : List Segment :=
  let mid_point := original_duration / 2
  [ ⟨.original, 0, mid_point - fade_duration⟩,
    ⟨.original, mid_point - fade_duration, mid_point⟩,
    ⟨.ad, 0, fade_duration⟩,
    ⟨.ad, fade_duration, ad_duration - fade_duration⟩,
    ⟨.ad, ad_duration - fade_duration, ad_duration⟩,
    ⟨.original, mid_point, mid_point + fade_duration⟩,
    ⟨.original, mid_point + fade_duration, original_duration⟩ ]

/-- The plan duration of a region. -/
def Segment.dur (s : Segment) : ℚ := s.stop - s.start

/-- Output-time boundaries of the seven distinct plan regions: running totals
of their durations starting at 0. -/
def timeline_boundaries (original_duration ad_duration : ℚ) : List ℚ :=
  ((_insert_add_timeline original_duration ad_duration).map Segment.dur).scanl (· + ·) 0

/-! ### The cached pipeline (`AudioSplicer.insert_ad_and_pad`) -/

/-- The `AudioSplicer` state: `cache` maps
`(original_file_name, ad_file_name)` to the bytes of the finished file
(represented by the `MP3File` whose byte size the buffer length equals). -/
structure SplicerState where
  cache : List ((String × String) × MP3File)
  deriving Repr

/-- The behaviour of the external encoding step (`_insert_add` writing the
temporary file via ffmpeg): given the original name, ad name and target size
it either raises an exception (`Except.error`, e.g. the bitrate planner's
`AssertionError` escaping `_insert_add`, which only catches `ffmpeg.Error`) or
leaves some file on disk and returns its boolean result. -/
def EncodeStep : Type := String → String → ℕ → Except Unit (MP3File × Bool)

/-- Result of one `insert_ad_and_pad` call: the returned bytes and updated
state (or a propagated exception), whether the temporary work file still
exists after the call, and whether the encoding step was invoked. -/
structure SpliceResult where
  outcome : Except Unit (MP3File × SplicerState)
  tempRemains : Bool
  encoderCalled : Bool
  deriving Repr

/-- `AudioSplicer.insert_ad_and_pad` from `audio_splicer.py`.  On a cache hit
the cached bytes are returned and no temporary file is created.  On a miss a
temporary file is created, `_insert_add` and `_pad_mp3_to_size` run with
their boolean results discarded, the file is read back, stored in the cache
and returned; the `finally` block unlinks the temporary file on both the
normal and the exceptional exit, so `tempRemains` is `false` on every path. -/
def insert_ad_and_pad (encode : EncodeStep) (st : SplicerState)
    (original_name ad_name : String) (target_size_bytes : ℕ) : SpliceResult :=
  match st.cache.lookup (original_name, ad_name) with
  | some data => { outcome := .ok (data, st), tempRemains := false, encoderCalled := false }
  | none =>
    -- temporary file created here; the body below runs inside try/finally
    let body : Except Unit (MP3File × SplicerState) :=
      match encode original_name ad_name target_size_bytes with
      | .error e => .error e
      | .ok (encoded, _insert_ok) =>
        let (padded, _pad_ok) := _pad_mp3_to_size encoded target_size_bytes
        let data := padded
        .ok (data, { cache := ((original_name, ad_name), data) :: st.cache })
    -- finally: os.unlink(tmp.name)
    { outcome := body, tempRemains := false, encoderCalled := true }

/-! ### Helper lemmas -/

/-- `List.find?` on a list sorted in descending order returns an upper bound
for every element of the list satisfying the predicate. -/
theorem find_desc_is_max (p : ℕ → Bool) :
    ∀ l : List ℕ, l.Pairwise (fun x y => y ≤ x) → ∀ b : ℕ, l.find? p = some b →
      ∀ x ∈ l, p x = true → x ≤ b := by
  intro l
  induction l with
  | nil => intro _ b hb; simp at hb
  | cons hd tl ih =>
    intro hpw b hb x hx hpx
    obtain ⟨hhd, htl⟩ := List.pairwise_cons.mp hpw
    by_cases hph : p hd = true
    · rw [List.find?_cons_of_pos _ hph] at hb
      cases hb
      rcases List.mem_cons.mp hx with rfl | hxt
      · exact le_refl _
      · exact hhd x hxt
    · rw [List.find?_cons_of_neg _ hph] at hb
      rcases List.mem_cons.mp hx with rfl | hxt
      · exact absurd hpx hph
      · exact ih htl b hb x hxt hpx

/-- Selection from the reversed bitrate ladder, for an arbitrary integer
target bitrate `tb`: when `32000 ≤ tb` the first hit of the reversed ladder
is the largest ladder value `b` with `b * 1000 ≤ tb`; when `tb < 32000` no
ladder value fits and the search fails. -/
theorem ladder_pick_spec (tb : ℤ) :
    (32000 ≤ tb →
      ∃ b, common_bitrates.reverse.find? (fun r : ℕ => decide ((r * 1000 : ℤ) ≤ tb)) = some b
        ∧ b ∈ common_bitrates ∧ (b * 1000 : ℤ) ≤ tb
        ∧ ∀ x ∈ common_bitrates, (x * 1000 : ℤ) ≤ tb → x ≤ b)
    ∧ (tb < 32000 →
      common_bitrates.reverse.find? (fun r : ℕ => decide ((r * 1000 : ℤ) ≤ tb)) = none) := by
  constructor
  · intro h32
    have hp32 : (fun r : ℕ => decide ((r * 1000 : ℤ) ≤ tb)) 32 = true := by
      simp only [decide_eq_true_eq]; omega
    obtain ⟨b, hb⟩ :
        ∃ b, common_bitrates.reverse.find? (fun r : ℕ => decide ((r * 1000 : ℤ) ≤ tb)) = some b := by
      cases hfe : common_bitrates.reverse.find? (fun r : ℕ => decide ((r * 1000 : ℤ) ≤ tb)) with
      | some b => exact ⟨b, rfl⟩
      | none =>
        have := List.find?_eq_none.mp hfe 32 (by decide)
        exact absurd hp32 this
    refine ⟨b, hb, ?_, ?_, ?_⟩
    · exact List.mem_reverse.mp (List.mem_of_find?_eq_some hb)
    · have := List.find?_some hb
      simpa only [decide_eq_true_eq] using this
    · intro x hx hxle
      exact find_desc_is_max _ common_bitrates.reverse (by decide) b hb x
        (List.mem_reverse.mpr hx) (by simpa only [decide_eq_true_eq] using hxle)
  · intro hlt
    refine List.find?_eq_none.mpr ?_
    intro x hx
    have h32x : 32 ≤ x := by
      have : ∀ y ∈ common_bitrates.reverse, 32 ≤ y := by decide
      exact this x hx
    simp only [decide_eq_true_eq]
    omega

/-! ### Claim theorems -/

/-- Claim C2: for duration `d > 0` and target size `s`, when
`s * 0.95 * 8 / d ≥ 32000` the bitrate planner returns the largest ladder
value `b` with `b * 1000 ≤ s * 0.95 * 8 / d`; when `s * 0.95 * 8 / d < 32000`
it reports an error (the `assert False` path, modelled as `none`). -/
theorem calculate_target_bitrate_correct (d : ℚ) (s : ℕ) (hd : 0 < d) :
    (32000 ≤ (s : ℚ) * (95 / 100) * 8 / d →
      ∃ b, _calculate_target_bitrate d s = some b ∧ b ∈ common_bitrates ∧
        (b : ℚ) * 1000 ≤ (s : ℚ) * (95 / 100) * 8 / d ∧
        ∀ b' ∈ common_bitrates, (b' : ℚ) * 1000 ≤ (s : ℚ) * (95 / 100) * 8 / d → b' ≤ b)
    ∧ ((s : ℚ) * (95 / 100) * 8 / d < 32000 → _calculate_target_bitrate d s = none) := by
  have hdef : _calculate_target_bitrate d s =
      common_bitrates.reverse.find?
        (fun r : ℕ => decide ((r * 1000 : ℤ) ≤ ⌊(s : ℚ) * (95 / 100) * 8 / d⌋)) := rfl
  set rate : ℚ := (s : ℚ) * (95 / 100) * 8 / d with hrate
  have hcast : ∀ n : ℕ, ((n * 1000 : ℤ) ≤ ⌊rate⌋) ↔ ((n : ℚ) * 1000 ≤ rate) := by
    intro n
    rw [Int.le_floor]
    push_cast
    rfl
  constructor
  · intro h32
    have h32' : (32000 : ℤ) ≤ ⌊rate⌋ := by
      rw [Int.le_floor]; exact_mod_cast h32
    obtain ⟨b, hb, hbmem, hble, hbmax⟩ := (ladder_pick_spec ⌊rate⌋).1 h32'
    refine ⟨b, by rw [hdef]; exact hb, hbmem, (hcast b).mp hble, ?_⟩
    intro b' hb' hb'le
    exact hbmax b' hb' ((hcast b').mpr hb'le)
  · intro hlt
    have hlt' : ⌊rate⌋ < 32000 := by
      rw [Int.floor_lt]; exact_mod_cast hlt
    rw [hdef]
    exact (ladder_pick_spec ⌊rate⌋).2 hlt'

/-- Witness for C2 at the spec's own example: `d = 300 s`,
`s = 5000000 bytes`, expected usable rate `126666 b/s`. -/
theorem calculate_target_bitrate_correct_witness :
    (0 : ℚ) < 300 ∧
    ((32000 ≤ ((5000000 : ℕ) : ℚ) * (95 / 100) * 8 / 300 →
      ∃ b, _calculate_target_bitrate 300 5000000 = some b ∧ b ∈ common_bitrates ∧
        (b : ℚ) * 1000 ≤ ((5000000 : ℕ) : ℚ) * (95 / 100) * 8 / 300 ∧
        ∀ b' ∈ common_bitrates,
          (b' : ℚ) * 1000 ≤ ((5000000 : ℕ) : ℚ) * (95 / 100) * 8 / 300 → b' ≤ b)
    ∧ (((5000000 : ℕ) : ℚ) * (95 / 100) * 8 / 300 < 32000 →
        _calculate_target_bitrate 300 5000000 = none)) :=
  ⟨by norm_num, calculate_target_bitrate_correct 300 5000000 (by norm_num)⟩

/-- Claim C3 as frozen is false: it quantifies over every file meeting the
size preconditions, but for a file with a pre-existing `TXXX:padding` entry
of payload `p` the padder computes the growth against a size that still
includes the old entry, replaces the entry, and lands at
`target - p - TXXX_FRAME_OVERHEAD ≠ target`, reporting failure.  Here the
concrete input `⟨content 100, padding payload 0⟩` (size 110) with target 130
satisfies `current_size ≤ target` and `target - current_size = 20 ≥ 10`, yet
the padder produces a 120-byte file and returns `false`. -/
theorem pad_mp3_to_size_prepadded_misses_target :
    (MP3File.mk 100 (some 0)).size ≤ 130
    ∧ TXXX_FRAME_OVERHEAD ≤ 130 - (MP3File.mk 100 (some 0)).size
    ∧ (_pad_mp3_to_size (MP3File.mk 100 (some 0)) 130).1.size = 120
    ∧ (_pad_mp3_to_size (MP3File.mk 100 (some 0)) 130).1.size ≠ 130
    ∧ (_pad_mp3_to_size (MP3File.mk 100 (some 0)) 130).2 = false := by
  refine ⟨?_, ?_, ?_, ?_, ?_⟩ <;> decide

/-- Claim C3, amended: for a file without a pre-existing `TXXX:padding` entry
(as the encoder leaves it) whose size is at most the target, with slack of at
least the frame overhead, the padder yields a file of exactly the target size
and reports success; and whenever the post-write size differs from the target
the padder reports failure rather than success. -/
theorem pad_mp3_to_size_exact :
    (∀ (f : MP3File) (target : ℕ), f.padding = none → f.size ≤ target →
      TXXX_FRAME_OVERHEAD ≤ target - f.size →
      (_pad_mp3_to_size f target).1.size = target ∧ (_pad_mp3_to_size f target).2 = true)
    ∧ (∀ (f : MP3File) (target : ℕ),
      (_pad_mp3_to_size f target).1.size ≠ target → (_pad_mp3_to_size f target).2 = false) := by
  constructor
  · intro f t hpad hle hov
    have hsz : f.size = f.content := by simp [MP3File.size, hpad]
    rw [hsz] at hle hov
    have hfin :
        (MP3File.mk f.content
          (some (((t : ℤ) - (f.size : ℤ) - (TXXX_FRAME_OVERHEAD : ℤ)).toNat))).size = t := by
      simp only [MP3File.size, hsz, TXXX_FRAME_OVERHEAD] at *
      omega
    unfold _pad_mp3_to_size
    rw [if_neg (by omega)]
    simp only [hfin, if_pos rfl]
    exact ⟨hfin, rfl⟩
  · intro f t hne
    unfold _pad_mp3_to_size at hne ⊢
    dsimp only at hne ⊢
    split_ifs at hne ⊢ with h1 h2
    · rfl
    · exact absurd h2 hne
    · rfl

/-- Witness for C3 at `f = ⟨100, none⟩`, `target = 120` (first conjunct) and
`f = ⟨300, none⟩`, `target = 200` (second conjunct). -/
theorem pad_mp3_to_size_exact_witness :
    ((MP3File.mk 100 none).padding = none ∧ (MP3File.mk 100 none).size ≤ 120 ∧
      TXXX_FRAME_OVERHEAD ≤ 120 - (MP3File.mk 100 none).size ∧
      (_pad_mp3_to_size (MP3File.mk 100 none) 120).1.size = 120 ∧
      (_pad_mp3_to_size (MP3File.mk 100 none) 120).2 = true)
    ∧ ((_pad_mp3_to_size (MP3File.mk 300 none) 200).1.size ≠ 200 ∧
      (_pad_mp3_to_size (MP3File.mk 300 none) 200).2 = false) :=
  ⟨⟨rfl, by decide, by decide,
      pad_mp3_to_size_exact.1 (MP3File.mk 100 none) 120 rfl (by decide) (by decide)⟩,
    ⟨by decide, pad_mp3_to_size_exact.2 (MP3File.mk 300 none) 200 (by decide)⟩⟩

/-- Claim C6: when the current size exceeds the target, the padder reports
failure and returns the file completely unmodified. -/
theorem pad_mp3_to_size_overflow_fails (f : MP3File) (target : ℕ) (h : target < f.size) :
    _pad_mp3_to_size f target = (f, false) := by
  unfold _pad_mp3_to_size
  rw [if_pos h]

/-- Witness for C6 at `f = ⟨300, none⟩`, `target = 200`. -/
theorem pad_mp3_to_size_overflow_fails_witness :
    200 < (MP3File.mk 300 none).size ∧
      _pad_mp3_to_size (MP3File.mk 300 none) 200 = (MP3File.mk 300 none, false) :=
  ⟨by decide, pad_mp3_to_size_overflow_fails (MP3File.mk 300 none) 200 (by decide)⟩

/-- Claim C8: when the target equals the current size (`growth_needed = 0`),
the padder writes a padding entry with zero-length payload (Python's
`b"\x00" * n` with `n = -TXXX_FRAME_OVERHEAD` is empty, i.e. `Int.toNat`
clamps to 0 — no underflow, exception or negative-length write), leaves the
rest of the file untouched, and the written entry costs exactly the fixed
frame overhead beyond the non-padding content. -/
theorem pad_mp3_to_size_zero_growth (f : MP3File) :
    (_pad_mp3_to_size f f.size).1 = MP3File.mk f.content (some 0)
    ∧ (_pad_mp3_to_size f f.size).1.size = f.content + TXXX_FRAME_OVERHEAD
    ∧ ((f.size : ℤ) - (f.size : ℤ) - (TXXX_FRAME_OVERHEAD : ℤ)).toNat = 0 := by
  have h0 : ((f.size : ℤ) - (f.size : ℤ) - (TXXX_FRAME_OVERHEAD : ℤ)).toNat = 0 := by
    simp [TXXX_FRAME_OVERHEAD]
  unfold _pad_mp3_to_size
  rw [if_neg (lt_irrefl _)]
  dsimp only
  simp only [h0]
  split_ifs <;> refine ⟨rfl, ?_, trivial⟩ <;> simp [MP3File.size]

/-- Claim C4 is false of the code: `_insert_add` performs no duration
validation, so for `original_duration = 10` and `ad_duration = 3 < 4` it
still builds the full 7-region plan and the plan contains a negative-length
region (the ad body, `atrim` from `2` to `1`) which is handed to ffmpeg —
there is no fail-fast invalid-plan error. -/
theorem insert_add_emits_negative_length_segment :
    (_insert_add_timeline 10 3).length = 7
    ∧ ((_insert_add_timeline 10 3).any fun s => decide (s.stop < s.start)) = true
    ∧ Segment.mk .ad 2 1 ∈ _insert_add_timeline 10 3 := by
  have hlist : _insert_add_timeline 10 3 =
      [⟨.original, 0, 3⟩, ⟨.original, 3, 5⟩, ⟨.ad, 0, 2⟩, ⟨.ad, 2, 1⟩,
        ⟨.ad, 1, 3⟩, ⟨.original, 5, 7⟩, ⟨.original, 7, 10⟩] := by
    simp only [_insert_add_timeline, fade_duration]
    norm_num [Segment.mk.injEq]
  refine ⟨rfl, ?_, ?_⟩ <;> rw [hlist] <;> decide

/-- Claim C5: for `original_duration ≥ 4` and `ad_duration ≥ 4` the seven
plan regions all have non-negative length, their distinct-region durations
sum to `original_duration + ad_duration`, and the output-time boundaries
obtained by laying the regions end to end are monotonically increasing
(hence contiguous by construction). -/
theorem timeline_regions_contiguous_nonneg_sum (o a : ℚ) (ho : 4 ≤ o) (ha : 4 ≤ a) :
    (_insert_add_timeline o a).length = 7
    ∧ (∀ s ∈ _insert_add_timeline o a, 0 ≤ s.dur)
    ∧ ((_insert_add_timeline o a).map Segment.dur).sum = o + a
    ∧ (timeline_boundaries o a).Chain' (· ≤ ·) := by
  refine ⟨rfl, ?_, ?_, ?_⟩
  · simp only [_insert_add_timeline, fade_duration, List.forall_mem_cons, List.forall_mem_nil,
      Segment.dur]
    refine ⟨?_, ?_, ?_, ?_, ?_, ?_, ?_, by simp⟩ <;> linarith
  · simp only [_insert_add_timeline, fade_duration, Segment.dur, List.map_cons, List.map_nil,
      List.sum_cons, List.sum_nil]
    ring
  · simp only [timeline_boundaries, _insert_add_timeline, fade_duration, Segment.dur,
      List.map_cons, List.map_nil, List.scanl, List.chain'_cons, List.chain'_singleton]
    refine ⟨?_, ?_, ?_, ?_, ?_, ?_, ?_, trivial⟩ <;> linarith

/-- Witness for C5 at `original_duration = 10`, `ad_duration = 6`. -/
theorem timeline_regions_contiguous_nonneg_sum_witness :
    (4 : ℚ) ≤ 10 ∧ (4 : ℚ) ≤ 6 ∧
    ((_insert_add_timeline 10 6).length = 7
    ∧ (∀ s ∈ _insert_add_timeline 10 6, 0 ≤ s.dur)
    ∧ ((_insert_add_timeline 10 6).map Segment.dur).sum = 10 + 6
    ∧ (timeline_boundaries 10 6).Chain' (· ≤ ·)) :=
  ⟨by norm_num, by norm_num,
    timeline_regions_contiguous_nonneg_sum 10 6 (by norm_num) (by norm_num)⟩

/-- Claim C9: for every call — cache hit (no temporary file is ever created),
cache miss with the encoding and padding steps succeeding, failing, or the
encoding step raising an exception — the temporary work file does not survive
the call: the `finally` block unlinks it on every exit path. -/
theorem insert_ad_and_pad_temp_file_removed (encode : EncodeStep) (st : SplicerState)
    (original_name ad_name : String) (target_size_bytes : ℕ) :
    (insert_ad_and_pad encode st original_name ad_name target_size_bytes).tempRemains = false := by
  unfold insert_ad_and_pad
  split <;> rfl

/-- Claim C10: on a cache miss where the encoding step leaves a readable file
(does not raise), the padded file's bytes are returned and stored in the cache
under `(original filename, ad filename)` unconditionally — the statement holds
for an arbitrary boolean result `insert_ok` of the encoding step, and the
boolean result of `_pad_mp3_to_size` does not appear in it at all: neither is
ever inspected. -/
theorem insert_ad_and_pad_ignores_step_results (encode : EncodeStep) (st : SplicerState)
    (original_name ad_name : String) (target_size_bytes : ℕ)
    (file : MP3File) (insert_ok : Bool)
    (hmiss : st.cache.lookup (original_name, ad_name) = none)
    (henc : encode original_name ad_name target_size_bytes = .ok (file, insert_ok)) :
    (insert_ad_and_pad encode st original_name ad_name target_size_bytes).outcome =
      .ok ((_pad_mp3_to_size file target_size_bytes).1,
        ⟨((original_name, ad_name), (_pad_mp3_to_size file target_size_bytes).1) :: st.cache⟩) := by
  unfold insert_ad_and_pad
  rw [hmiss, henc]

/-- Witness for C10: an encoding step that reports failure (`insert_ok =
false`) and leaves an oversized 300-byte file for target 200, so the padding
step also fails — the 300-byte buffer is still cached and returned. -/
theorem insert_ad_and_pad_ignores_step_results_witness :
    (SplicerState.mk []).cache.lookup ("orig.mp3", "ad.mp3") = none
    ∧ (fun (_ _ : String) (_ : ℕ) =>
        (Except.ok (MP3File.mk 300 none, false) : Except Unit (MP3File × Bool)))
        "orig.mp3" "ad.mp3" 200 = .ok (MP3File.mk 300 none, false)
    ∧ (_pad_mp3_to_size (MP3File.mk 300 none) 200).2 = false
    ∧ (insert_ad_and_pad
        (fun _ _ _ => .ok (MP3File.mk 300 none, false)) (SplicerState.mk [])
        "orig.mp3" "ad.mp3" 200).outcome =
      .ok ((_pad_mp3_to_size (MP3File.mk 300 none) 200).1,
        ⟨[(("orig.mp3", "ad.mp3"), (_pad_mp3_to_size (MP3File.mk 300 none) 200).1)]⟩) :=
  ⟨rfl, rfl, by decide,
    insert_ad_and_pad_ignores_step_results
      (fun _ _ _ => .ok (MP3File.mk 300 none, false)) (SplicerState.mk [])
      "orig.mp3" "ad.mp3" 200 (MP3File.mk 300 none) false rfl rfl⟩

/-- Claim C7: if a call returned bytes `data` and left state `st'`, then an
immediately repeated call with the identical inputs returns the identical
bytes and state, and is answered from the cache without invoking the encoding
step. -/
theorem insert_ad_and_pad_idempotent_cached (encode : EncodeStep) (st : SplicerState)
    (original_name ad_name : String) (target_size_bytes : ℕ)
    (data : MP3File) (st' : SplicerState)
    (h1 : (insert_ad_and_pad encode st original_name ad_name target_size_bytes).outcome
        = .ok (data, st')) :
    (insert_ad_and_pad encode st' original_name ad_name target_size_bytes).outcome
        = .ok (data, st')
    ∧ (insert_ad_and_pad encode st' original_name ad_name target_size_bytes).encoderCalled
        = false := by
  unfold insert_ad_and_pad at h1 ⊢
  cases hl : st.cache.lookup (original_name, ad_name) with
  | some cached =>
    rw [hl] at h1
    simp only [Except.ok.injEq, Prod.mk.injEq] at h1
    obtain ⟨rfl, rfl⟩ := h1
    rw [hl]
    exact ⟨rfl, rfl⟩
  | none =>
    rw [hl] at h1
    cases he : encode original_name ad_name target_size_bytes with
    | error e => rw [he] at h1; simp at h1
    | ok fr =>
      rw [he] at h1
      simp only [Except.ok.injEq, Prod.mk.injEq] at h1
      obtain ⟨hdata, hst⟩ := h1
      subst hst
      have hhit :
          (SplicerState.mk (((original_name, ad_name),
            (_pad_mp3_to_size fr.1 target_size_bytes).1) :: st.cache)).cache.lookup
            (original_name, ad_name)
          = some (_pad_mp3_to_size fr.1 target_size_bytes).1 := by
        simp [List.lookup]
      rw [hhit, hdata]
      exact ⟨rfl, rfl⟩

/-- Witness for C7: a first call on an empty cache with an encoder leaving a
100-byte file for target 120, then the repeated call. -/
theorem insert_ad_and_pad_idempotent_cached_witness :
    (insert_ad_and_pad
        (fun _ _ _ => .ok (MP3File.mk 100 none, true)) (SplicerState.mk [])
        "orig.mp3" "ad.mp3" 120).outcome
      = .ok (MP3File.mk 100 (some 10),
          SplicerState.mk [(("orig.mp3", "ad.mp3"), MP3File.mk 100 (some 10))])
    ∧ ((insert_ad_and_pad
          (fun _ _ _ => .ok (MP3File.mk 100 none, true))
          (SplicerState.mk [(("orig.mp3", "ad.mp3"), MP3File.mk 100 (some 10))])
          "orig.mp3" "ad.mp3" 120).outcome
        = .ok (MP3File.mk 100 (some 10),
            SplicerState.mk [(("orig.mp3", "ad.mp3"), MP3File.mk 100 (some 10))])
      ∧ (insert_ad_and_pad
          (fun _ _ _ => .ok (MP3File.mk 100 none, true))
          (SplicerState.mk [(("orig.mp3", "ad.mp3"), MP3File.mk 100 (some 10))])
          "orig.mp3" "ad.mp3" 120).encoderCalled = false) :=
  ⟨rfl,
    insert_ad_and_pad_idempotent_cached
      (fun _ _ _ => .ok (MP3File.mk 100 none, true)) (SplicerState.mk [])
      "orig.mp3" "ad.mp3" 120 (MP3File.mk 100 (some 10))
      (SplicerState.mk [(("orig.mp3", "ad.mp3"), MP3File.mk 100 (some 10))])
      rfl⟩

/-- Claim C1 is false of the code: `AudioSplicer.insert_ad_and_pad` never
inspects the boolean results of `_insert_add` and `_pad_mp3_to_size`, so when
the encoder leaves a 300-byte file for target 200 (padding fails with
`initial_size > target_size`), the 300-byte buffer — whose length differs
from the target — is cached and returned to the caller instead of a failure. -/
theorem insert_ad_and_pad_returns_mismatched_size :
    (insert_ad_and_pad (fun _ _ _ => .ok (MP3File.mk 300 none, true)) (SplicerState.mk [])
        "orig.mp3" "ad.mp3" 200).outcome
      = .ok (MP3File.mk 300 none,
          SplicerState.mk [(("orig.mp3", "ad.mp3"), MP3File.mk 300 none)])
    ∧ (MP3File.mk 300 none).size ≠ 200 :=
  ⟨rfl, by decide⟩

end PodcastSplicer
